import Mathlib

/-!
Shallow embedding of src/mailflow_checker.py: a mail round-trip monitor that
builds a probe message, sends it over SMTP, polls an IMAP mailbox for the
probe with a cascade of search strategies, optionally deletes the found
probe, and aggregates per-account outcomes into a process exit code.

Conventions of the embedding:
  * Machine effects (SMTP send, IMAP connect, IMAP SELECT and SEARCH replies,
    STORE plus EXPUNGE) are supplied as oracle inputs in a MailEnv record;
    a Python exception raised by a collaborator is an Except.error value.
  * The randomly generated correlation identifier and the formatted date are
    oracle inputs of build_message (uuid.uuid4 and time are side effects).
  * Wall-clock time is a natural number of seconds; each search attempt is
    instantaneous and time.sleep(interval) advances the clock by interval.
  * Message sequence identifiers returned by IMAP SEARCH are natural numbers.
-/

namespace MailflowChecker

/-- Source line 19: the replacement string for sensitive values. -/
def REDACTED : String := "***REDACTED***"

/-- Model of Python str.lower for configuration keys. -/
def pyLower (s : String) : String := ⟨s.data.map Char.toLower⟩

/-- Source line 34: membership of the lowered key in the sensitive-key set. -/
def isSensitiveKey (k : String) : Bool :=
  pyLower k == "password" || pyLower k == "pass" || pyLower k == "secret" ||
    pyLower k == "token" || pyLower k == "push_key"

mutual

/-- A YAML/JSON-like configuration value, as traversed by redact_config. -/
inductive Val : Type where
  | vstr : String → Val
  | vint : Int → Val
  | vbool : Bool → Val
  | vnull : Val
  | vdict : Obj → Val
  | varr : Arr → Val

/-- The entry list of a configuration dictionary (keys in order). -/
inductive Obj : Type where
  | nil : Obj
  | cons : String → Val → Obj → Obj

/-- The element list of a configuration list. -/
inductive Arr : Type where
  | nil : Arr
  | cons : Val → Arr → Arr

end

mutual

/-- Source lines 30 to 41: redact_config. A dictionary entry whose key is
sensitive is replaced by the fixed redaction string (without recursing into
its value); all other values are traversed recursively; non-container leaves
are returned unchanged. -/
def redact_config : Val → Val
  | .vdict o => .vdict (redactObj o)
  | .varr a => .varr (redactArr a)
  | v => v

/-- redact_config on the entries of a dictionary. -/
def redactObj : Obj → Obj
  | .nil => .nil
  | .cons k v rest =>
      .cons k (if isSensitiveKey k then Val.vstr REDACTED else redact_config v)
        (redactObj rest)

/-- redact_config on the elements of a list. -/
def redactArr : Arr → Arr
  | .nil => .nil
  | .cons v rest => .cons (redact_config v) (redactArr rest)

end

/-- Is this value exactly the redaction marker string. -/
def isRedactedStr : Val → Bool
  | .vstr s => s == REDACTED
  | _ => false

mutual

/-- Spec-side check: every entry of a sensitive key, at any nesting depth
inside dictionaries and lists, holds exactly the redaction string. -/
def noSecretsV : Val → Bool
  | .vdict o => noSecretsO o
  | .varr a => noSecretsA a
  | _ => true

/-- noSecretsV on dictionary entries. -/
def noSecretsO : Obj → Bool
  | .nil => true
  | .cons k v rest =>
      (if isSensitiveKey k then isRedactedStr v else noSecretsV v) && noSecretsO rest

/-- noSecretsV on list elements. -/
def noSecretsA : Arr → Bool
  | .nil => true
  | .cons v rest => noSecretsV v && noSecretsA rest

end

mutual

/-- Two configuration values differ at most in the values stored under
sensitive keys: same constructors, same keys in the same order, equal
non-container leaves, and arbitrary values only immediately under a
sensitive dictionary key. -/
inductive DiffVal : Val → Val → Prop where
  | vstr (s : String) : DiffVal (.vstr s) (.vstr s)
  | vint (n : Int) : DiffVal (.vint n) (.vint n)
  | vbool (b : Bool) : DiffVal (.vbool b) (.vbool b)
  | vnull : DiffVal .vnull .vnull
  | vdict {o₁ o₂ : Obj} : DiffObj o₁ o₂ → DiffVal (.vdict o₁) (.vdict o₂)
  | varr {a₁ a₂ : Arr} : DiffArr a₁ a₂ → DiffVal (.varr a₁) (.varr a₂)

/-- DiffVal on dictionary entry lists. -/
inductive DiffObj : Obj → Obj → Prop where
  | nil : DiffObj .nil .nil
  | consSens {k : String} {v₁ v₂ : Val} {r₁ r₂ : Obj} :
      isSensitiveKey k = true → DiffObj r₁ r₂ →
      DiffObj (.cons k v₁ r₁) (.cons k v₂ r₂)
  | consPlain {k : String} {v₁ v₂ : Val} {r₁ r₂ : Obj} :
      isSensitiveKey k = false → DiffVal v₁ v₂ → DiffObj r₁ r₂ →
      DiffObj (.cons k v₁ r₁) (.cons k v₂ r₂)

/-- DiffVal on list element lists. -/
inductive DiffArr : Arr → Arr → Prop where
  | nil : DiffArr .nil .nil
  | cons {v₁ v₂ : Val} {r₁ r₂ : Arr} :
      DiffVal v₁ v₂ → DiffArr r₁ r₂ →
      DiffArr (.cons v₁ r₁) (.cons v₂ r₂)

end

/-- Source lines 44 to 53: SMTP submission settings. -/
structure SMTPSettings : Type where
  host : String
  port : Nat := 465
  security : String := "ssl"
  username : Option String := none
  password : Option String := none
  from_addr : Option String := none
  to_addr : Option String := none
  timeout : Nat := 30
  deriving DecidableEq

/-- Source lines 56 to 64: IMAP mailbox settings. -/
structure IMAPSettings : Type where
  host : String
  port : Nat := 993
  security : String := "ssl"
  username : Option String := none
  password : Option String := none
  mailbox : String := "INBOX"
  timeout : Nat := 30
  deriving DecidableEq

/-- Source lines 67 to 70: poll deadline and fixed delay, in seconds. -/
structure PollSettings : Type where
  timeout_seconds : Nat := 120
  interval_seconds : Nat := 5
  deriving DecidableEq

/-- Source lines 78 to 85: one fully merged account configuration.
The optional health-push URL is carried but cannot influence any outcome,
because both push_kuma itself and its call site swallow every error. -/
structure AccountConfig : Type where
  name : String
  smtp : SMTPSettings
  imap : IMAPSettings
  poll : PollSettings := {}
  delete_on_success : Bool := true
  push_url : Option String := none
  deriving DecidableEq

/-- Model of Python str(x) applied to an optional string drawn from
dict.get: str(None) is the four-character string "None", not empty. -/
def pyStr : Option String → String
  | none => "None"
  | some s => s

/-- Model of the Python expression `a or b` on two dict.get results,
where None and the empty string are falsy. -/
def pyOr (a b : Option String) : Option String :=
  match a with
  | none => b
  | some s => if s = "" then b else some s

/-- The post-merge dictionary lookups that feed the required-field handling
of parse_config (source lines 113 to 157), restricted to the fields the
validation is about. A missing key is a none. -/
structure RawAccountFields : Type where
  smtp_host : Option String := none
  smtp_from : Option String := none
  smtp_from_addr : Option String := none
  smtp_to : Option String := none
  smtp_to_addr : Option String := none
  imap_host : Option String := none
  deriving DecidableEq

/-- The host and address fields of an account as built by parse_config. -/
structure ParsedFields : Type where
  smtpHost : String
  imapHost : String
  fromAddr : Option String
  toAddr : Option String
  deriving DecidableEq

/-- Source lines 119 to 157: construction of the host and address fields
followed by the basic validation loop. host is str(smtp_dict.get("host")),
so a missing host becomes the non-empty string "None"; from and to are
smtp_dict.get("from") or smtp_dict.get("from_addr") (resp. "to"), left
optional and not validated here. The validation raises ValueError when a
host string is empty. -/
def parseAccountFields (name : String) (r : RawAccountFields) :
    Except String ParsedFields :=
  let smtpHost := pyStr r.smtp_host
  let imapHost := pyStr r.imap_host
  let fromAddr := pyOr r.smtp_from r.smtp_from_addr
  let toAddr := pyOr r.smtp_to r.smtp_to_addr
  if smtpHost = "" then
    .error ("Missing required config value: smtp.host for account " ++ name)
  else if imapHost = "" then
    .error ("Missing required config value: imap.host for account " ++ name)
  else
    .ok ⟨smtpHost, imapHost, fromAddr, toAddr⟩

/-- The Subject line built by build_message (source line 171). -/
def subjectLine (subjectPre tok : String) : String :=
  subjectPre ++ " token=" ++ tok

/-- The Message-ID built by build_message (source line 170). -/
def messageIdOf (tok : String) : String := "<" ++ tok ++ "@e2e-monitor>"

/-- The header lines of the probe message (source lines 173 to 182). -/
def headerLines (from_addr to_addr subject now msg_id : String) : List String :=
  ["From: " ++ from_addr,
   "To: " ++ to_addr,
   "Subject: " ++ subject,
   "Date: " ++ now,
   "Message-ID: " ++ msg_id,
   "MIME-Version: 1.0",
   "Content-Type: text/plain; charset=utf-8",
   "Content-Transfer-Encoding: 8bit"]

/-- The body of the probe message (source lines 183 to 187). -/
def bodyText (tok now : String) : String :=
  "This is an automated E2E monitoring email.\n" ++
    "Token: " ++ tok ++ "\n" ++ "Time: " ++ now ++ "\n"

/-- Source lines 168 to 189: build_message. The correlation identifier tok
(uuid4 hex in the source) and the formatted date now are oracle inputs;
the function returns the triple (token, raw payload, Message-ID). The raw
payload is kept as the string whose UTF-8 encoding the source sends. -/
def build_message (tok now from_addr to_addr : String)
    (subjectPre : String := "Stalwart E2E Monitor") : String × String × String :=
  let msg_id := messageIdOf tok
  let subject := subjectLine subjectPre tok
  let raw := String.intercalate "\r\n"
      (headerLines from_addr to_addr subject now msg_id) ++ "\r\n\r\n" ++
      bodyText tok now
  (tok, raw, msg_id)

/-- A Python exception, reduced to its class name and its message,
the two components the source interpolates into status strings. -/
structure PyErr : Type where
  className : String
  detail : String
  deriving DecidableEq

/-- The interpolation f-string fragment for an exception. -/
def pyErrStr (e : PyErr) : String := e.className ++ ": " ++ e.detail

/-- One reply of imap.search: the status word (typ == OK) and the data
list, whose first element splits into a list of message identifiers. -/
structure Reply : Type where
  typOK : Bool
  data : List (List Nat)
  deriving DecidableEq

/-- Source lines 233 to 237: the ordered criteria list, Message-ID header
first, then subject substring, then full text. -/
def headerCrit (msg_id : String) : String :=
  "(HEADER Message-ID \"" ++ msg_id ++ "\")"

/-- The subject-substring criterion. -/
def subjectCrit (tok : String) : String := "(SUBJECT \"" ++ tok ++ "\")"

/-- The full-text criterion. -/
def textCrit (tok : String) : String := "(TEXT \"" ++ tok ++ "\")"

/-- The criteria list in source order. -/
def criteriaList (tok msg_id : String) : List String :=
  [headerCrit msg_id, subjectCrit tok, textCrit tok]

/-- Python data[0]: the first identifier list of a search reply. -/
def dataHead (r : Reply) : List Nat :=
  match r.data with
  | [] => []
  | ids :: _ => ids

/-- The identifiers a single strategy returned: data[0].split() when the
search call returned OK with non-empty data, and nothing otherwise (a
raised exception returns no identifiers). -/
def matchIds (f : String → Except PyErr Reply) (c : String) : List Nat :=
  match f c with
  | .error _ => []
  | .ok r => if r.typOK && !r.data.isEmpty then dataHead r else []

/-- Source lines 238 to 244: the for-loop over the criteria. The second
component instruments the loop with the list of criteria actually passed
to imap.search, in order, for the short-circuit statements; an exception
raised by imap.search propagates as an error. -/
def searchLoop (f : String → Except PyErr Reply) :
    List String → Except PyErr (Option Nat) × List String
  | [] => (.ok none, [])
  | c :: rest =>
    match f c with
    | .error e => (.error e, [c])
    | .ok r =>
      if r.typOK && !r.data.isEmpty then
        match (dataHead r).getLast? with
        | some i => (.ok (some i), [c])
        | none =>
          let p := searchLoop f rest
          (p.1, c :: p.2)
      else
        let p := searchLoop f rest
        (p.1, c :: p.2)

/-- Source lines 227 to 244: imap_search_for_token. selectOK models the
status of imap.select; a non-OK select raises RuntimeError before any
search strategy runs. -/
def imap_search_for_token (selectOK : Bool) (f : String → Except PyErr Reply)
    (mailbox tok msg_id : String) : Except PyErr (Option Nat) × List String :=
  if selectOK then searchLoop f (criteriaList tok msg_id)
  else (.error ⟨"RuntimeError", "Failed to select mailbox " ++ mailbox⟩, [])

/-- Spec-side cascade, following the spec words: strategies are tried in
the given order, a later strategy only when every earlier one returned no
match, and the winning strategy contributes the LAST identifier of its
returned list. -/
def spec_search (f : String → Except PyErr Reply) : List String → Option Nat
  | [] => none
  | c :: rest =>
    if matchIds f c = [] then spec_search f rest else (matchIds f c).getLast?

/-- What the poll loop observes of one attempt: the found identifier when
imap_search_for_token returned one, and nothing when it returned None or
raised (the except branch of source lines 302 to 303 keeps found_id falsy,
so the loop branches only on this). -/
def foundOf (r : Except PyErr (Option Nat)) : Option Nat :=
  match r with
  | .ok o => o
  | .error _ => none

/-- Result of the poll loop: the found identifier (none on timeout), the
number of search attempts made, and the clock value at loop exit,
measured in seconds from the start of polling. -/
structure PollResult : Type where
  found : Option Nat
  attempts : Nat
  endTime : Nat
  deriving DecidableEq

/-- Source lines 296 to 304: the while-loop, with explicit fuel. Each
iteration at time t < T performs attempt n; on a found identifier it
breaks at once, otherwise time.sleep advances the clock by I. The fuel
T - t bounds the iteration count whenever 0 < I, and at fuel zero the
guard t < T is already false, so with the initial fuel T the function
computes exactly the source loop for every positive interval I. -/
def pollLoopAux (step : Nat → Except PyErr (Option Nat)) (T I : Nat) :
    Nat → Nat → Nat → PollResult
  | 0, t, n => ⟨none, n, t⟩
  | fuel + 1, t, n =>
    if t < T then
      match foundOf (step n) with
      | some i => ⟨some i, n + 1, t⟩
      | none => pollLoopAux step T I fuel (t + I) (n + 1)
    else ⟨none, n, t⟩

/-- The poll loop from time 0, attempt 0, with fuel T. -/
def pollLoop (step : Nat → Except PyErr (Option Nat)) (T I : Nat) : PollResult :=
  pollLoopAux step T I T 0 0

/-- The oracle for one account run: the outcome of smtp_send (latency in
milliseconds, or the caught exception), of imap_connect, of imap.select
and imap.search per attempt, and of the STORE plus EXPUNGE cleanup. -/
structure MailEnv : Type where
  smtpResult : Except PyErr Nat
  imapConnect : Except PyErr Unit
  selectOK : Nat → Bool
  searchReply : Nat → String → Except PyErr Reply
  deleteResult : Except PyErr Unit

/-- The triple run_for_account returns: success flag, status message,
and the reported latency in milliseconds. -/
structure Outcome : Type where
  success : Bool
  statusMessage : String
  pingMs : Option Nat
  deriving DecidableEq

/-- Observable side effects of one account run: whether imap_connect was
invoked, how many poll attempts ran, whether the cleanup was attempted,
and the warnings logged by the best-effort cleanup. -/
structure Trace : Type where
  imapConnectAttempted : Bool
  searchAttempts : Nat
  deleteAttempted : Bool
  warnings : List String
  deriving DecidableEq

/-- Outcome plus trace of one account run. -/
structure RunResult : Type where
  outcome : Outcome
  trace : Trace
  deriving DecidableEq

/-- Python falsiness of a string. -/
def pyFalsyStr (s : String) : Bool := s == ""

/-- Python falsiness of an optional string (None or empty). -/
def pyFalsyOptStr : Option String → Bool
  | none => true
  | some s => s == ""

/-- The four required-field checks of source lines 269 to 276, as one
boolean: from, to, smtp host and imap host are all truthy. -/
def requiredFieldsOk (acct : AccountConfig) : Bool :=
  !pyFalsyOptStr acct.smtp.from_addr && !pyFalsyOptStr acct.smtp.to_addr &&
    !pyFalsyStr acct.smtp.host && !pyFalsyStr acct.imap.host

/-- One poll attempt of the run: imap_search_for_token with the select
status and search replies the mailbox gives on attempt n, on the token and
Message-ID produced by build_message. -/
def runAttemptStep (acct : AccountConfig) (env : MailEnv) (tok : String)
    (n : Nat) : Except PyErr (Option Nat) :=
  (imap_search_for_token (env.selectOK n) (env.searchReply n)
    acct.imap.mailbox tok (messageIdOf tok)).1

/-- The poll loop the run executes, with the configured deadline and
interval. -/
def pollResultOf (acct : AccountConfig) (env : MailEnv) (tok : String) :
    PollResult :=
  pollLoop (runAttemptStep acct env tok) acct.poll.timeout_seconds
    acct.poll.interval_seconds

/-- Source lines 267 to 324: run_for_account. A raised ValueError from the
required-field loop is an Except.error (it is not caught anywhere in the
source); every other exit returns a triple, modelled as a RunResult. The
statusMessage strings are the f-strings of the source; the cleanup
exception is downgraded to a warning in the trace. -/
def run_for_account (acct : AccountConfig) (env : MailEnv) (tok now : String) :
    Except String RunResult :=
  if pyFalsyOptStr acct.smtp.from_addr then
    .error ("Account " ++ acct.name ++ ": missing required field smtp.from")
  else if pyFalsyOptStr acct.smtp.to_addr then
    .error ("Account " ++ acct.name ++ ": missing required field smtp.to")
  else if pyFalsyStr acct.smtp.host then
    .error ("Account " ++ acct.name ++ ": missing required field smtp.host")
  else if pyFalsyStr acct.imap.host then
    .error ("Account " ++ acct.name ++ ": missing required field imap.host")
  else
    let bm := build_message tok now (acct.smtp.from_addr.getD "")
      (acct.smtp.to_addr.getD "")
    match env.smtpResult with
    | .error e =>
      .ok ⟨⟨false, "SMTP failed: " ++ pyErrStr e, none⟩, ⟨false, 0, false, []⟩⟩
    | .ok smtp_ms =>
      match env.imapConnect with
      | .error e =>
        .ok ⟨⟨false, "IMAP connect failed: " ++ pyErrStr e, some smtp_ms⟩,
          ⟨true, 0, false, []⟩⟩
      | .ok _ =>
        let pr := pollResultOf acct env bm.1
        match pr.found with
        | none =>
          .ok ⟨⟨false, "IMAP timeout: message not found", some smtp_ms⟩,
            ⟨true, pr.attempts, false, []⟩⟩
        | some found_id =>
          if acct.delete_on_success then
            match env.deleteResult with
            | .error e =>
              .ok ⟨⟨true, "OK", some smtp_ms⟩,
                ⟨true, pr.attempts, true,
                 ["Could not delete message id " ++ toString found_id ++ ": "
                   ++ pyErrStr e]⟩⟩
            | .ok _ =>
              .ok ⟨⟨true, "OK", some smtp_ms⟩, ⟨true, pr.attempts, true, []⟩⟩
          else
            .ok ⟨⟨true, "OK", some smtp_ms⟩, ⟨true, pr.attempts, false, []⟩⟩

/-- Source lines 342 to 355: the per-account loop of main. runner models
run_for_account applied to each account; an Except.error is the uncaught
exception aborting the loop. The ok value is the final overall_ok together
with the number of accounts processed. The push to the reporter cannot
influence this fold: push_kuma swallows every exception and its call site
is additionally wrapped. -/
def processAccounts (runner : AccountConfig → Except String RunResult) :
    List AccountConfig → Except String (Bool × Nat)
  | [] => .ok (true, 0)
  | a :: rest =>
    match runner a with
    | .error e => .error e
    | .ok r =>
      match processAccounts runner rest with
      | .error e => .error e
      | .ok (ok, n) => .ok (r.outcome.success && ok, n + 1)

/-- Source lines 327 to 356: main. A parse_config exception yields return
code 2; otherwise the account loop runs and main returns 0 or 1 from
overall_ok. An exception escaping the account loop escapes main. -/
def mainExitCode (cfg : Except String (List AccountConfig))
    (runner : AccountConfig → Except String RunResult) : Except String Nat :=
  match cfg with
  | .error _ => .ok 2
  | .ok accounts =>
    match processAccounts runner accounts with
    | .error e => .error e
    | .ok (ok, _) => .ok (if ok then 0 else 1)

/-- The exit status the operating system observes: the value of
sys.exit(main()) when main returns, and 1 when an uncaught exception
terminates the interpreter. -/
def processExitCode (cfg : Except String (List AccountConfig))
    (runner : AccountConfig → Except String RunResult) : Nat :=
  match mainExitCode cfg runner with
  | .ok n => n
  | .error _ => 1

/-- Did the runner produce a successful outcome for this account. -/
def accountSucceeds (runner : AccountConfig → Except String RunResult)
    (a : AccountConfig) : Bool :=
  match runner a with
  | .ok r => r.outcome.success
  | .error _ => false

/-- A concrete, fully valid account used by witnesses. -/
def acctW : AccountConfig :=
  { name := "acct1",
    smtp := { host := "smtp.example.org", from_addr := some "alice@example.org",
              to_addr := some "bob@example.org" },
    imap := { host := "imap.example.org" },
    poll := ⟨10, 5⟩ }

/-- A mailbox that always answers OK with no matching identifiers. -/
def replyNone : String → Except PyErr Reply := fun _ => .ok ⟨true, []⟩

/-- A mailbox that always answers OK with the identifiers 3 and 7. -/
def replyHit : String → Except PyErr Reply := fun _ => .ok ⟨true, [[3, 7]]⟩

/-- Environment whose SMTP send fails with an authentication error. -/
def envSmtpFail : MailEnv :=
  { smtpResult := .error ⟨"SMTPAuthenticationError", "535 auth failed"⟩,
    imapConnect := .ok (), selectOK := fun _ => true,
    searchReply := fun _ => replyNone, deleteResult := .ok () }

/-- Environment where the send works and the mailbox never matches. -/
def envNoMatch : MailEnv :=
  { smtpResult := .ok 42, imapConnect := .ok (), selectOK := fun _ => true,
    searchReply := fun _ => replyNone, deleteResult := .ok () }

/-- Environment where the probe is found at once but the cleanup fails. -/
def envDeleteFail : MailEnv :=
  { smtpResult := .ok 42, imapConnect := .ok (), selectOK := fun _ => true,
    searchReply := fun _ => replyHit,
    deleteResult := .error ⟨"IMAP4.error", "STORE failed"⟩ }

/-- A mailbox whose Message-ID strategy answers with identifiers 3 and 7
and whose weaker strategies would also match (identifier 99). -/
def fHdr : String → Except PyErr Reply := fun c =>
  if c = headerCrit (messageIdOf "tok") then .ok ⟨true, [[3, 7]]⟩
  else .ok ⟨true, [[99]]⟩

/-- An account whose from address is missing (None after the merge). -/
def acctNoFrom : AccountConfig :=
  { name := "acct2",
    smtp := { host := "smtp.example.org", to_addr := some "bob@example.org" },
    imap := { host := "imap.example.org" },
    poll := ⟨10, 5⟩ }

/-- Post-merge raw fields of an account whose smtp and imap sections both
lack a host entry. -/
def rawNoHost : RawAccountFields :=
  { smtp_from := some "alice@example.org", smtp_to := some "bob@example.org" }

/-- The account parse_config builds from rawNoHost: both hosts are the
string "None" produced by str(None). -/
def acctNoHost : AccountConfig :=
  { name := "acct3",
    smtp := { host := "None", from_addr := some "alice@example.org",
              to_addr := some "bob@example.org" },
    imap := { host := "None" },
    poll := ⟨10, 5⟩ }

/-- Environment whose SMTP connection fails to resolve the host name. -/
def envDnsFail : MailEnv :=
  { smtpResult := .error ⟨"gaierror", "Name or service not known"⟩,
    imapConnect := .ok (), selectOK := fun _ => true,
    searchReply := fun _ => replyNone, deleteResult := .ok () }

/-- A configuration holding one secret, value "hunter2". -/
def cW1 : Val :=
  .vdict (.cons "smtp"
    (.vdict (.cons "Password" (.vstr "hunter2") .nil))
    (.cons "host" (.vstr "mail.example.org") .nil))

/-- The same configuration with the secret replaced by "letmein". -/
def cW2 : Val :=
  .vdict (.cons "smtp"
    (.vdict (.cons "Password" (.vstr "letmein") .nil))
    (.cons "host" (.vstr "mail.example.org") .nil))

theorem requiredFields_split (acct : AccountConfig)
    (hv : requiredFieldsOk acct = true) :
    pyFalsyOptStr acct.smtp.from_addr = false ∧
      pyFalsyOptStr acct.smtp.to_addr = false ∧
      pyFalsyStr acct.smtp.host = false ∧ pyFalsyStr acct.imap.host = false := by
  simp only [requiredFieldsOk, Bool.and_eq_true, Bool.not_eq_true'] at hv
  exact ⟨hv.1.1.1, hv.1.1.2, hv.1.2, hv.2⟩

theorem pollLoopAux_found_none (step : Nat → Except PyErr (Option Nat))
    (T I : Nat) (h : ∀ n, foundOf (step n) = none) :
    ∀ fuel t n, (pollLoopAux step T I fuel t n).found = none := by
  intro fuel
  induction fuel with
  | zero => intro t n; rfl
  | succ f ih =>
    intro t n
    by_cases ht : t < T
    · simp [pollLoopAux, ht, h n, ih]
    · simp [pollLoopAux, ht]

theorem pollLoopAux_endTime_ge (step : Nat → Except PyErr (Option Nat))
    (T I : Nat) (h : ∀ n, foundOf (step n) = none) :
    ∀ fuel t n, T ≤ t + fuel * I → T ≤ (pollLoopAux step T I fuel t n).endTime := by
  intro fuel
  induction fuel with
  | zero => intro t n hb; simpa [pollLoopAux] using hb
  | succ f ih =>
    intro t n hb
    by_cases ht : t < T
    · have hb' : T ≤ (t + I) + f * I := by
        calc T ≤ t + (f + 1) * I := hb
        _ = (t + I) + f * I := by ring
      simp only [pollLoopAux, ht, if_true, h n]
      exact ih (t + I) (n + 1) hb'
    · simpa [pollLoopAux, ht] using Nat.le_of_not_lt ht

theorem pollLoopAux_endTime_lt (step : Nat → Except PyErr (Option Nat))
    (T I : Nat) :
    ∀ fuel t n, t < T + I → (pollLoopAux step T I fuel t n).endTime < T + I := by
  intro fuel
  induction fuel with
  | zero => intro t n hb; simpa [pollLoopAux] using hb
  | succ f ih =>
    intro t n hb
    by_cases ht : t < T
    · have hb' : t + I < T + I := Nat.add_lt_add_right ht I
      simp only [pollLoopAux, ht, if_true]
      cases hfo : foundOf (step n) with
      | none => exact ih (t + I) (n + 1) hb'
      | some i => simpa using Nat.lt_of_lt_of_le ht (Nat.le_add_right T I)
    · simpa [pollLoopAux, ht] using hb

theorem pollLoopAux_attempts_lower (step : Nat → Except PyErr (Option Nat))
    (T I : Nat) :
    ∀ fuel t n, n ≤ (pollLoopAux step T I fuel t n).attempts := by
  intro fuel
  induction fuel with
  | zero => intro t n; simp [pollLoopAux]
  | succ f ih =>
    intro t n
    by_cases ht : t < T
    · simp only [pollLoopAux, ht, if_true]
      cases hfo : foundOf (step n) with
      | none => exact Nat.le_of_succ_le (ih (t + I) (n + 1))
      | some i => simp
    · simp [pollLoopAux, ht]

theorem pollLoopAux_attempts_reach (step : Nat → Except PyErr (Option Nat))
    (T I : Nat) :
    ∀ fuel t n m, (∀ k, k < m → foundOf (step (n + k)) = none) →
      t + m * I < T → m < fuel →
      n + m + 1 ≤ (pollLoopAux step T I fuel t n).attempts := by
  intro fuel
  induction fuel with
  | zero => intro t n m _ _ hm; exact absurd hm (Nat.not_lt_zero m)
  | succ f ih =>
    intro t n m hnf hT hm
    have ht : t < T := Nat.lt_of_le_of_lt (Nat.le_add_right t (m * I)) hT
    simp only [pollLoopAux, ht, if_true]
    cases m with
    | zero =>
      cases hfo : foundOf (step n) with
      | none =>
        simpa using pollLoopAux_attempts_lower step T I f (t + I) (n + 1)
      | some i => simp
    | succ m' =>
      have h0 : foundOf (step n) = none := by simpa using hnf 0 (Nat.succ_pos m')
      rw [h0]
      have hnf' : ∀ k, k < m' → foundOf (step (n + 1 + k)) = none := by
        intro k hk
        have := hnf (k + 1) (Nat.succ_lt_succ hk)
        simpa [Nat.add_assoc, Nat.add_comm 1 k] using this
      have hT' : (t + I) + m' * I < T := by
        calc (t + I) + m' * I = t + (m' + 1) * I := by ring
        _ < T := hT
      have := ih (t + I) (n + 1) m' hnf' hT' (Nat.lt_of_succ_lt_succ hm)
      calc n + (m' + 1) + 1 = (n + 1) + m' + 1 := by ring
      _ ≤ _ := this

theorem pollLoopAux_congr (step₁ step₂ : Nat → Except PyErr (Option Nat))
    (T I : Nat) (h : ∀ n, foundOf (step₁ n) = foundOf (step₂ n)) :
    ∀ fuel t n, pollLoopAux step₁ T I fuel t n = pollLoopAux step₂ T I fuel t n := by
  intro fuel
  induction fuel with
  | zero => intro t n; rfl
  | succ f ih =>
    intro t n
    by_cases ht : t < T
    · simp only [pollLoopAux, ht, if_true, h n]
      cases foundOf (step₂ n) with
      | none => exact ih (t + I) (n + 1)
      | some i => rfl
    · simp [pollLoopAux, ht]

theorem pollLoop_never_found_10_5 (step : Nat → Except PyErr (Option Nat))
    (h : ∀ n, foundOf (step n) = none) : pollLoop step 10 5 = ⟨none, 2, 10⟩ := by
  simp [pollLoop, pollLoopAux, h]

/-- Claim C2: with deadline T and interval I, if no strategy ever matches,
the loop exits to the timeout outcome (success false, statusMessage
"IMAP timeout: message not found") at a time no earlier than T and no later
than T + I after the poll start, and with T = 10, I = 5 the number of search
attempts lies in the claimed range 2 to 3 (the model, whose attempts are
instantaneous, always performs exactly 2). -/
theorem poll_timeout_window (acct : AccountConfig) (env : MailEnv)
    (tok now : String) (ms : Nat) (hv : requiredFieldsOk acct = true)
    (hs : env.smtpResult = .ok ms) (hc : env.imapConnect = .ok ())
    (hI : 0 < acct.poll.interval_seconds)
    (hn : ∀ n, foundOf (runAttemptStep acct env tok n) = none) :
    run_for_account acct env tok now =
      .ok ⟨⟨false, "IMAP timeout: message not found", some ms⟩,
        ⟨true, (pollResultOf acct env tok).attempts, false, []⟩⟩ ∧
    acct.poll.timeout_seconds ≤ (pollResultOf acct env tok).endTime ∧
    (pollResultOf acct env tok).endTime ≤
      acct.poll.timeout_seconds + acct.poll.interval_seconds ∧
    (acct.poll.timeout_seconds = 10 → acct.poll.interval_seconds = 5 →
      (pollResultOf acct env tok).attempts = 2 ∧
        2 ≤ (pollResultOf acct env tok).attempts ∧
        (pollResultOf acct env tok).attempts ≤ 3) := by
  obtain ⟨h1, h2, h3, h4⟩ := requiredFields_split acct hv
  have hfound : (pollResultOf acct env tok).found = none :=
    pollLoopAux_found_none (runAttemptStep acct env tok) _ _ hn _ 0 0
  refine ⟨?_, ?_, ?_, ?_⟩
  · simp [run_for_account, build_message, h1, h2, h3, h4, hs, hc, hfound]
  · have hb : acct.poll.timeout_seconds ≤
        0 + acct.poll.timeout_seconds * acct.poll.interval_seconds := by
      simpa using Nat.le_mul_of_pos_right acct.poll.timeout_seconds hI
    exact pollLoopAux_endTime_ge (runAttemptStep acct env tok) _ _ hn _ 0 0 hb
  · have hb : 0 < acct.poll.timeout_seconds + acct.poll.interval_seconds :=
      Nat.lt_of_lt_of_le hI (Nat.le_add_left _ _)
    exact Nat.le_of_lt
      (pollLoopAux_endTime_lt (runAttemptStep acct env tok) _ _ _ 0 0 hb)
  · intro hT hI5
    have h25 : pollResultOf acct env tok = ⟨none, 2, 10⟩ := by
      simp only [pollResultOf, hT, hI5]
      exact pollLoop_never_found_10_5 _ hn
    rw [h25]
    exact ⟨rfl, by decide, by decide⟩

theorem poll_timeout_window_witness :
    run_for_account acctW envNoMatch "tok" "now" =
      .ok ⟨⟨false, "IMAP timeout: message not found", some 42⟩,
        ⟨true, (pollResultOf acctW envNoMatch "tok").attempts, false, []⟩⟩ ∧
    acctW.poll.timeout_seconds ≤ (pollResultOf acctW envNoMatch "tok").endTime ∧
    (pollResultOf acctW envNoMatch "tok").endTime ≤
      acctW.poll.timeout_seconds + acctW.poll.interval_seconds ∧
    (acctW.poll.timeout_seconds = 10 → acctW.poll.interval_seconds = 5 →
      (pollResultOf acctW envNoMatch "tok").attempts = 2 ∧
        2 ≤ (pollResultOf acctW envNoMatch "tok").attempts ∧
        (pollResultOf acctW envNoMatch "tok").attempts ≤ 3) :=
  poll_timeout_window acctW envNoMatch "tok" "now" 42 (by decide) rfl rfl
    (by decide) (fun _ => rfl)

/-- Claim C3: a search error on attempt N is transient. First conjunct:
if attempts 0 to N produced no find, attempt N raised an error, and the
deadline still lies beyond the time of attempt N + 1, then attempt N + 1
occurs (the loop reaches at least N + 2 attempts). Second conjunct: the
loop result depends only on the found identifier of each attempt, so an
attempt that raises is treated exactly like an attempt that found nothing
(it neither aborts the loop nor fails the account). -/
theorem transient_error_poll_continues :
    (∀ (step : Nat → Except PyErr (Option Nat)) (T I N : Nat) (e : PyErr),
      0 < I → (∀ k, k ≤ N → foundOf (step k) = none) → step N = .error e →
      (N + 1) * I < T → N + 2 ≤ (pollLoop step T I).attempts) ∧
    (∀ (step₁ step₂ : Nat → Except PyErr (Option Nat)) (T I : Nat),
      (∀ n, foundOf (step₁ n) = foundOf (step₂ n)) →
      pollLoop step₁ T I = pollLoop step₂ T I) := by
  constructor
  · intro step T I N e hI hnf _ hT
    have hm : N + 1 < T := by
      have h1 : N + 1 ≤ (N + 1) * I := Nat.le_mul_of_pos_right (N + 1) hI
      exact Nat.lt_of_le_of_lt h1 hT
    have := pollLoopAux_attempts_reach step T I T 0 0 (N + 1)
      (fun k hk => by simpa using hnf k (Nat.lt_succ_iff.mp hk))
      (by simpa using hT) hm
    simpa [pollLoop] using this
  · intro step₁ step₂ T I h
    exact pollLoopAux_congr step₁ step₂ T I h T 0 0

theorem transient_error_poll_continues_witness :
    0 + 2 ≤ (pollLoop (fun k => if k = 0
        then (.error ⟨"IMAP4.abort", "socket error"⟩ : Except PyErr (Option Nat))
        else .ok none) 10 2).attempts ∧
    pollLoop (fun k => if k = 0
        then (.error ⟨"IMAP4.abort", "socket error"⟩ : Except PyErr (Option Nat))
        else .ok none) 10 2 =
      pollLoop (fun _ => (.ok none : Except PyErr (Option Nat))) 10 2 :=
  ⟨by
    simpa using transient_error_poll_continues.1
      (fun k => if k = 0
        then (.error ⟨"IMAP4.abort", "socket error"⟩ : Except PyErr (Option Nat))
        else .ok none) 10 2 0 ⟨"IMAP4.abort", "socket error"⟩ (by decide)
      (fun k hk => by
        have hk0 : k = 0 := Nat.le_zero.mp hk
        simp [hk0, foundOf])
      (by simp) (by decide),
   transient_error_poll_continues.2
      (fun k => if k = 0
        then (.error ⟨"IMAP4.abort", "socket error"⟩ : Except PyErr (Option Nat))
        else .ok none) (fun _ => .ok none) 10 2
      (fun n => by by_cases hn : n = 0 <;> simp [hn, foundOf])⟩

/-- Claim C4: when the SMTP send fails, the account terminates at once with
success false and statusMessage "SMTP failed: " followed by the exception
class and detail; the IMAP connection is never opened, no poll attempt is
made, and no cleanup is attempted. -/
theorem smtp_failure_terminal (acct : AccountConfig) (env : MailEnv)
    (tok now : String) (e : PyErr) (hv : requiredFieldsOk acct = true)
    (hs : env.smtpResult = .error e) :
    run_for_account acct env tok now =
      .ok ⟨⟨false, "SMTP failed: " ++ pyErrStr e, none⟩,
        ⟨false, 0, false, []⟩⟩ := by
  obtain ⟨h1, h2, h3, h4⟩ := requiredFields_split acct hv
  simp [run_for_account, h1, h2, h3, h4, hs]

theorem smtp_failure_terminal_witness :
    run_for_account acctW envSmtpFail "tok" "now" =
      .ok ⟨⟨false, "SMTP failed: SMTPAuthenticationError: 535 auth failed", none⟩,
        ⟨false, 0, false, []⟩⟩ :=
  smtp_failure_terminal acctW envSmtpFail "tok" "now"
    ⟨"SMTPAuthenticationError", "535 auth failed"⟩ (by decide) rfl

/-- Claim C5: when the probe was found and delete_on_success is set, a
failing cleanup only adds a warning; the outcome is still success true with
statusMessage "OK". -/
theorem cleanup_failure_keeps_success (acct : AccountConfig) (env : MailEnv)
    (tok now : String) (ms i : Nat) (e : PyErr)
    (hv : requiredFieldsOk acct = true) (hs : env.smtpResult = .ok ms)
    (hc : env.imapConnect = .ok ())
    (hf : (pollResultOf acct env tok).found = some i)
    (hd : acct.delete_on_success = true) (he : env.deleteResult = .error e) :
    run_for_account acct env tok now =
      .ok ⟨⟨true, "OK", some ms⟩,
        ⟨true, (pollResultOf acct env tok).attempts, true,
          ["Could not delete message id " ++ toString i ++ ": " ++ pyErrStr e]⟩⟩ := by
  obtain ⟨h1, h2, h3, h4⟩ := requiredFields_split acct hv
  simp [run_for_account, build_message, h1, h2, h3, h4, hs, hc, hf, hd, he]

theorem cleanup_failure_keeps_success_witness :
    run_for_account acctW envDeleteFail "tok" "now" =
      .ok ⟨⟨true, "OK", some 42⟩,
        ⟨true, (pollResultOf acctW envDeleteFail "tok").attempts, true,
          ["Could not delete message id 7: IMAP4.error: STORE failed"]⟩⟩ :=
  cleanup_failure_keeps_success acctW envDeleteFail "tok" "now" 42 7
    ⟨"IMAP4.error", "STORE failed"⟩ (by decide) rfl rfl (by decide) rfl rfl

theorem mem_dropLast_cons {α : Type} {x c : α} {l : List α}
    (h : x ∈ (c :: l).dropLast) : x = c ∨ x ∈ l.dropLast := by
  cases l with
  | nil => simp at h
  | cons a l' =>
    rw [List.dropLast_cons₂] at h
    rcases List.mem_cons.mp h with h | h
    · exact Or.inl h
    · exact Or.inr h

theorem searchLoop_consulted_take (f : String → Except PyErr Reply) :
    ∀ l, ∃ k, (searchLoop f l).2 = l.take k := by
  intro l
  induction l with
  | nil => exact ⟨0, rfl⟩
  | cons a rest ih =>
    rcases hfa : f a with e | r
    · exact ⟨1, by simp [searchLoop, hfa]⟩
    · by_cases hcond : (r.typOK && !r.data.isEmpty) = true
      · rcases hlast : (dataHead r).getLast? with _ | i
        · obtain ⟨k, hk⟩ := ih
          exact ⟨k + 1, by simp [searchLoop, hfa, hcond, hlast, hk]⟩
        · exact ⟨1, by simp [searchLoop, hfa, hcond, hlast]⟩
      · obtain ⟨k, hk⟩ := ih
        exact ⟨k + 1, by simp [searchLoop, hfa, hcond, hk]⟩

theorem searchLoop_dropLast_nomatch (f : String → Except PyErr Reply) :
    ∀ l, ∀ c ∈ (searchLoop f l).2.dropLast, matchIds f c = [] := by
  intro l
  induction l with
  | nil => intro c hc; simp [searchLoop] at hc
  | cons a rest ih =>
    intro c hc
    rcases hfa : f a with e | r
    · simp [searchLoop, hfa] at hc
    · by_cases hcond : (r.typOK && !r.data.isEmpty) = true
      · rcases hlast : (dataHead r).getLast? with _ | i
        · have hform : (searchLoop f (a :: rest)).2 = a :: (searchLoop f rest).2 := by
            simp [searchLoop, hfa, hcond, hlast]
          rw [hform] at hc
          rcases mem_dropLast_cons hc with hca | hcr
          · subst hca
            have hnil : dataHead r = [] := List.getLast?_eq_none_iff.mp hlast
            simp [matchIds, hfa, hcond, hnil]
          · exact ih c hcr
        · simp [searchLoop, hfa, hcond, hlast] at hc
      · have hform : (searchLoop f (a :: rest)).2 = a :: (searchLoop f rest).2 := by
          simp [searchLoop, hfa, hcond]
        rw [hform] at hc
        rcases mem_dropLast_cons hc with hca | hcr
        · subst hca
          simp [matchIds, hfa, hcond]
        · exact ih c hcr

theorem searchLoop_winner_last (f : String → Except PyErr Reply) :
    ∀ l i, (searchLoop f l).1 = .ok (some i) →
      ∃ c, (searchLoop f l).2.getLast? = some c ∧ matchIds f c ≠ [] ∧
        (matchIds f c).getLast? = some i := by
  intro l
  induction l with
  | nil => intro i hi; simp [searchLoop] at hi
  | cons a rest ih =>
    intro i hi
    rcases hfa : f a with e | r
    · simp [searchLoop, hfa] at hi
    · by_cases hcond : (r.typOK && !r.data.isEmpty) = true
      · rcases hlast : (dataHead r).getLast? with _ | j
        · have h1 : (searchLoop f (a :: rest)).1 = (searchLoop f rest).1 := by
            simp [searchLoop, hfa, hcond, hlast]
          have hform : (searchLoop f (a :: rest)).2 = a :: (searchLoop f rest).2 := by
            simp [searchLoop, hfa, hcond, hlast]
          rw [h1] at hi
          obtain ⟨c, hc1, hc2, hc3⟩ := ih i hi
          refine ⟨c, ?_, hc2, hc3⟩
          rw [hform]
          rcases hrest : (searchLoop f rest).2 with _ | ⟨b, l'⟩
          · rw [hrest] at hc1; simp at hc1
          · rw [hrest] at hc1
            rw [List.getLast?_cons_cons]
            exact hc1
        · have h1 : (searchLoop f (a :: rest)).1 = .ok (some j) := by
            simp [searchLoop, hfa, hcond, hlast]
          have hform : (searchLoop f (a :: rest)).2 = [a] := by
            simp [searchLoop, hfa, hcond, hlast]
          have hji : j = i := by
            have h2 := h1.symm.trans hi
            simpa using h2
          subst hji
          refine ⟨a, by rw [hform]; rfl, ?_, ?_⟩
          · have hne : dataHead r ≠ [] := fun h0 => by simp [h0] at hlast
            simpa [matchIds, hfa, hcond] using hne
          · simpa [matchIds, hfa, hcond] using hlast
      · have h1 : (searchLoop f (a :: rest)).1 = (searchLoop f rest).1 := by
          simp [searchLoop, hfa, hcond]
        have hform : (searchLoop f (a :: rest)).2 = a :: (searchLoop f rest).2 := by
          simp [searchLoop, hfa, hcond]
        rw [h1] at hi
        obtain ⟨c, hc1, hc2, hc3⟩ := ih i hi
        refine ⟨c, ?_, hc2, hc3⟩
        rw [hform]
        rcases hrest : (searchLoop f rest).2 with _ | ⟨b, l'⟩
        · rw [hrest] at hc1; simp at hc1
        · rw [hrest] at hc1
          rw [List.getLast?_cons_cons]
          exact hc1

theorem searchLoop_spec_refine (f : String → Except PyErr Reply) :
    ∀ l, (∀ c ∈ l, (f c).isOk = true) →
      (searchLoop f l).1 = .ok (spec_search f l) := by
  intro l
  induction l with
  | nil => intro _; rfl
  | cons a rest ih =>
    intro h
    have ha : (f a).isOk = true := h a (List.mem_cons_self a rest)
    have hrest : ∀ c ∈ rest, (f c).isOk = true :=
      fun c hc => h c (List.mem_cons_of_mem a hc)
    rcases hfa : f a with e | r
    · rw [hfa] at ha; simp [Except.isOk, Except.toBool] at ha
    · by_cases hcond : (r.typOK && !r.data.isEmpty) = true
      · rcases hlast : (dataHead r).getLast? with _ | j
        · have hnil : dataHead r = [] := List.getLast?_eq_none_iff.mp hlast
          have hm : matchIds f a = [] := by simp [matchIds, hfa, hcond, hnil]
          have h1 : (searchLoop f (a :: rest)).1 = (searchLoop f rest).1 := by
            simp [searchLoop, hfa, hcond, hlast]
          rw [h1, ih hrest]
          simp [spec_search, hm]
        · have hm : matchIds f a = dataHead r := by
            simp [matchIds, hfa, hcond]
          have hne : matchIds f a ≠ [] := by
            rw [hm]; intro h0; simp [h0] at hlast
          have h1 : (searchLoop f (a :: rest)).1 = .ok (some j) := by
            simp [searchLoop, hfa, hcond, hlast]
          rw [h1]
          simp only [spec_search]
          rw [if_neg hne, hm, hlast]
      · have hm : matchIds f a = [] := by simp [matchIds, hfa, hcond]
        have h1 : (searchLoop f (a :: rest)).1 = (searchLoop f rest).1 := by
          simp [searchLoop, hfa, hcond]
        rw [h1, ih hrest]
        simp [spec_search, hm]

/-- Claim C1: per poll attempt the strategies are consulted in the fixed
order Message-ID header, subject substring, full text; the instrumented
consulted list is a prefix of that order whose non-final members all
returned no match (short-circuit, so the Message-ID strategy is preferred
whenever it matches); a returned identifier is the LAST identifier of the
winning (final consulted) strategy; and when no search call raises, the
result coincides with the spec-side ordered cascade spec_search. -/
theorem imap_search_ordered_shortcircuit_last (f : String → Except PyErr Reply)
    (mailbox tok msg_id : String) :
    criteriaList tok msg_id = [headerCrit msg_id, subjectCrit tok, textCrit tok] ∧
    (∃ k, (imap_search_for_token true f mailbox tok msg_id).2 =
      (criteriaList tok msg_id).take k) ∧
    (∀ c ∈ (imap_search_for_token true f mailbox tok msg_id).2.dropLast,
      matchIds f c = []) ∧
    (∀ i, (imap_search_for_token true f mailbox tok msg_id).1 = .ok (some i) →
      ∃ c, (imap_search_for_token true f mailbox tok msg_id).2.getLast? = some c ∧
        matchIds f c ≠ [] ∧ (matchIds f c).getLast? = some i) ∧
    ((∀ c ∈ criteriaList tok msg_id, (f c).isOk = true) →
      (imap_search_for_token true f mailbox tok msg_id).1 =
        .ok (spec_search f (criteriaList tok msg_id))) :=
  ⟨rfl,
   searchLoop_consulted_take f (criteriaList tok msg_id),
   searchLoop_dropLast_nomatch f (criteriaList tok msg_id),
   searchLoop_winner_last f (criteriaList tok msg_id),
   searchLoop_spec_refine f (criteriaList tok msg_id)⟩

theorem imap_search_ordered_witness :
    (∃ c, (imap_search_for_token true fHdr "INBOX" "tok"
        (messageIdOf "tok")).2.getLast? = some c ∧
      matchIds fHdr c ≠ [] ∧ (matchIds fHdr c).getLast? = some 7) ∧
    (imap_search_for_token true fHdr "INBOX" "tok" (messageIdOf "tok")).1 =
      .ok (spec_search fHdr (criteriaList "tok" (messageIdOf "tok"))) :=
  ⟨(imap_search_ordered_shortcircuit_last fHdr "INBOX" "tok"
      (messageIdOf "tok")).2.2.2.1 7 rfl,
   (imap_search_ordered_shortcircuit_last fHdr "INBOX" "tok"
      (messageIdOf "tok")).2.2.2.2 (by decide)⟩

/-- Claim C9: the probe embeds its correlation identifier verbatim in the
Message-ID and in the Subject line, and the raw payload is the CRLF-joined
header block, a blank-line separator, and a body containing the identifier
and the human-readable timestamp. -/
theorem build_message_embeds_token (tok now from_addr to_addr subjectPre : String) :
    (build_message tok now from_addr to_addr subjectPre).1 = tok ∧
    (∃ a b, (build_message tok now from_addr to_addr subjectPre).2.2 =
      a ++ tok ++ b) ∧
    (∃ a b, subjectLine subjectPre tok = a ++ tok ++ b) ∧
    (build_message tok now from_addr to_addr subjectPre).2.1 =
      String.intercalate "\r\n" (headerLines from_addr to_addr
        (subjectLine subjectPre tok) now (messageIdOf tok)) ++ "\r\n\r\n" ++
        bodyText tok now ∧
    (∃ a b, bodyText tok now = a ++ tok ++ b) ∧
    (∃ a b, bodyText tok now = a ++ now ++ b) := by
  refine ⟨rfl, ⟨"<", "@e2e-monitor>", rfl⟩,
    ⟨subjectPre ++ " token=", "", ?_⟩, rfl, ?_, ?_⟩
  · rw [String.append_empty]; rfl
  · exact ⟨"This is an automated E2E monitoring email.\n" ++ "Token: ",
      "\n" ++ "Time: " ++ now ++ "\n", by simp [bodyText, String.append_assoc]⟩
  · exact ⟨"This is an automated E2E monitoring email.\n" ++ "Token: " ++ tok ++
      "\n" ++ "Time: ", "\n", rfl⟩

theorem processAccounts_ok (runner : AccountConfig → Except String RunResult) :
    ∀ l b n, processAccounts runner l = .ok (b, n) →
      n = l.length ∧ (b = true ↔ ∀ a ∈ l, accountSucceeds runner a = true) := by
  intro l
  induction l with
  | nil =>
    intro b n h
    simp only [processAccounts, Except.ok.injEq, Prod.mk.injEq] at h
    obtain ⟨hb, hn⟩ := h
    subst hb; subst hn
    simp
  | cons a rest ih =>
    intro b n h
    simp only [processAccounts] at h
    cases hra : runner a with
    | error e => rw [hra] at h; simp at h
    | ok r =>
      rw [hra] at h
      cases hpr : processAccounts runner rest with
      | error e => rw [hpr] at h; simp at h
      | ok p =>
        obtain ⟨b', n'⟩ := p
        rw [hpr] at h
        simp only [Except.ok.injEq, Prod.mk.injEq] at h
        obtain ⟨hb, hn⟩ := h
        obtain ⟨hlen, hiff⟩ := ih b' n' hpr
        subst hb; subst hn
        constructor
        · simp [hlen]
        · constructor
          · intro hband
            rw [Bool.and_eq_true] at hband
            intro x hx
            rcases List.mem_cons.mp hx with hxa | hxr
            · subst hxa; simpa [accountSucceeds, hra] using hband.1
            · exact (hiff.mp hband.2) x hxr
          · intro hall
            rw [Bool.and_eq_true]
            constructor
            · have := hall a (List.mem_cons_self a rest)
              simpa [accountSucceeds, hra] using this
            · exact hiff.mpr (fun x hx => hall x (List.mem_cons_of_mem a hx))

theorem processAccounts_error_mem
    (runner : AccountConfig → Except String RunResult) :
    ∀ l e, processAccounts runner l = .error e →
      ∃ a ∈ l, accountSucceeds runner a = false := by
  intro l
  induction l with
  | nil => intro e h; simp [processAccounts] at h
  | cons a rest ih =>
    intro e h
    simp only [processAccounts] at h
    cases hra : runner a with
    | error e1 =>
      exact ⟨a, List.mem_cons_self a rest, by simp [accountSucceeds, hra]⟩
    | ok r =>
      rw [hra] at h
      cases hpr : processAccounts runner rest with
      | error e2 =>
        obtain ⟨x, hx, hfx⟩ := ih e2 hpr
        exact ⟨x, List.mem_cons_of_mem a hx, hfx⟩
      | ok p =>
        obtain ⟨b2, n2⟩ := p
        rw [hpr] at h
        simp at h

/-- Claim C8: the run exits with 2 exactly when parse_config raised, and
otherwise with 0 exactly when every selected account succeeded and with 1
exactly when at least one did not (an account whose pipeline raised and
crashed the interpreter also yields exit status 1 and counts as failed). -/
theorem exit_code_contract (runner : AccountConfig → Except String RunResult) :
    (∀ msg : String, processExitCode (.error msg) runner = 2) ∧
    (∀ accounts : List AccountConfig,
      (processExitCode (.ok accounts) runner = 0 ↔
        ∀ a ∈ accounts, accountSucceeds runner a = true) ∧
      (processExitCode (.ok accounts) runner = 1 ↔
        ∃ a ∈ accounts, accountSucceeds runner a = false)) := by
  refine ⟨fun _ => rfl, fun accounts => ?_⟩
  cases hp : processAccounts runner accounts with
  | error e =>
    obtain ⟨x, hx, hfx⟩ := processAccounts_error_mem runner accounts e hp
    have h1 : processExitCode (.ok accounts) runner = 1 := by
      simp [processExitCode, mainExitCode, hp]
    refine ⟨⟨fun h0 => ?_, fun hall => ?_⟩, ⟨fun _ => ⟨x, hx, hfx⟩, fun _ => h1⟩⟩
    · rw [h1] at h0; exact absurd h0 one_ne_zero
    · have hxx := hall x hx
      rw [hfx] at hxx
      exact absurd hxx (by simp)
  | ok p =>
    obtain ⟨b, n⟩ := p
    obtain ⟨-, hiff⟩ := processAccounts_ok runner accounts b n hp
    have hexit : processExitCode (.ok accounts) runner = if b then 0 else 1 := by
      simp [processExitCode, mainExitCode, hp]
    cases b with
    | true =>
      have hall := hiff.mp rfl
      rw [hexit]
      refine ⟨⟨fun _ => hall, fun _ => by simp⟩, ⟨fun h1 => ?_, fun hex => ?_⟩⟩
      · simp at h1
      · obtain ⟨x, hx, hfx⟩ := hex
        have hxx := hall x hx
        rw [hfx] at hxx
        exact absurd hxx (by simp)
    | false =>
      have hnall : ¬ ∀ a ∈ accounts, accountSucceeds runner a = true := by
        intro hall
        have := hiff.mpr hall
        simp at this
      have hex : ∃ a ∈ accounts, accountSucceeds runner a = false := by
        push_neg at hnall
        obtain ⟨x, hx, hfx⟩ := hnall
        exact ⟨x, hx, by simpa using hfx⟩
      rw [hexit]
      refine ⟨⟨fun h0 => ?_, fun hall => absurd hall hnall⟩,
        ⟨fun _ => hex, fun _ => by simp⟩⟩
      · simp at h0

theorem run_for_account_total (acct : AccountConfig) (env : MailEnv)
    (tok now : String) (hv : requiredFieldsOk acct = true) :
    ∃ r, run_for_account acct env tok now = .ok r := by
  obtain ⟨h1, h2, h3, h4⟩ := requiredFields_split acct hv
  have hok : (run_for_account acct env tok now).isOk = true := by
    rcases hs : env.smtpResult with e | ms
    · simp [run_for_account, h1, h2, h3, h4, hs, Except.isOk, Except.toBool]
    · rcases hc : env.imapConnect with e | u
      · simp [run_for_account, h1, h2, h3, h4, hs, hc, Except.isOk,
          Except.toBool]
      · cases u
        rcases hf : (pollResultOf acct env tok).found with _ | i
        · simp [run_for_account, build_message, h1, h2, h3, h4, hs, hc, hf,
            Except.isOk, Except.toBool]
        · cases hd : acct.delete_on_success with
          | false =>
            simp [run_for_account, build_message, h1, h2, h3, h4, hs, hc, hf,
              hd, Except.isOk, Except.toBool]
          | true =>
            rcases he : env.deleteResult with e | u1
            · simp [run_for_account, build_message, h1, h2, h3, h4, hs, hc, hf,
                hd, he, Except.isOk, Except.toBool]
            · cases u1
              simp [run_for_account, build_message, h1, h2, h3, h4, hs, hc, hf,
                hd, he, Except.isOk, Except.toBool]
  rcases hr : run_for_account acct env tok now with e | r
  · rw [hr] at hok
    simp [Except.isOk, Except.toBool] at hok
  · exact ⟨r, rfl⟩

/-- Claim C7, amended: for accounts whose required fields are present, every
error of the send, connect, search, and cleanup collaborators is converted
into an ok outcome inside run_for_account, and the account loop of main then
processes every account of the list; the required-field ValueError raised by
run_for_account itself is the exception, shown by the counterexample. -/
theorem pipeline_errors_converted (tok now : String) :
    (∀ (acct : AccountConfig) (env : MailEnv), requiredFieldsOk acct = true →
      ∃ r, run_for_account acct env tok now = .ok r) ∧
    (∀ (accounts : List AccountConfig) (envOf : AccountConfig → MailEnv),
      (∀ a ∈ accounts, requiredFieldsOk a = true) →
      ∃ b, processAccounts (fun a => run_for_account a (envOf a) tok now)
        accounts = .ok (b, accounts.length)) := by
  constructor
  · exact fun acct env hv => run_for_account_total acct env tok now hv
  · intro accounts envOf hv
    induction accounts with
    | nil => exact ⟨true, rfl⟩
    | cons a rest ih =>
      obtain ⟨r, hr⟩ := run_for_account_total a (envOf a) tok now
        (hv a (List.mem_cons_self a rest))
      obtain ⟨b, hb⟩ := ih (fun x hx => hv x (List.mem_cons_of_mem a hx))
      exact ⟨r.outcome.success && b, by simp [processAccounts, hr, hb]⟩

theorem pipeline_errors_converted_witness :
    (∃ r, run_for_account acctW envSmtpFail "tok" "now" = .ok r) ∧
    (∃ b, processAccounts (fun a => run_for_account a envSmtpFail "tok" "now")
      [acctW] = .ok (b, [acctW].length)) :=
  ⟨(pipeline_errors_converted "tok" "now").1 acctW envSmtpFail (by decide),
   (pipeline_errors_converted "tok" "now").2 [acctW] (fun _ => envSmtpFail)
     (by intro a ha; rw [List.mem_singleton.mp ha]; decide)⟩

/-- Counterexample to claim C7 as stated: an account whose from address is
missing makes run_for_account raise (return an error) instead of producing
an outcome; the error escapes the account loop, so the sibling account acctW
is never processed and main crashes (exit status 1). -/
theorem validation_error_escapes_pipeline :
    run_for_account acctNoFrom envNoMatch "tok" "now" =
      .error "Account acct2: missing required field smtp.from" ∧
    processAccounts (fun a => run_for_account a envNoMatch "tok" "now")
        [acctNoFrom, acctW] =
      .error "Account acct2: missing required field smtp.from" ∧
    processExitCode (.ok [acctNoFrom, acctW])
      (fun a => run_for_account a envNoMatch "tok" "now") = 1 :=
  ⟨rfl, rfl, rfl⟩

/-- Claim C6, code slip: an account configuration missing both host entries
passes the parse_config validation, because str(None) is the non-empty
string "None"; the pipeline then runs (here the send fails on the bogus
host), so the run neither aborts before the pipeline nor exits with 2. -/
theorem missing_host_passes_validation :
    parseAccountFields "acct3" rawNoHost =
      .ok ⟨"None", "None", some "alice@example.org", some "bob@example.org"⟩ ∧
    requiredFieldsOk acctNoHost = true ∧
    run_for_account acctNoHost envDnsFail "tok" "now" =
      .ok ⟨⟨false, "SMTP failed: gaierror: Name or service not known", none⟩,
        ⟨false, 0, false, []⟩⟩ ∧
    processExitCode (.ok [acctNoHost])
      (fun a => run_for_account a envDnsFail "tok" "now") = 1 :=
  ⟨rfl, by decide, rfl, rfl⟩

mutual

theorem diffVal_redact : (v : Val) → DiffVal v (redact_config v)
  | .vstr s => DiffVal.vstr s
  | .vint n => DiffVal.vint n
  | .vbool b => DiffVal.vbool b
  | .vnull => DiffVal.vnull
  | .vdict o => DiffVal.vdict (diffObj_redact o)
  | .varr a => DiffVal.varr (diffArr_redact a)

theorem diffObj_redact : (o : Obj) → DiffObj o (redactObj o)
  | .nil => DiffObj.nil
  | .cons k v r => by
    by_cases hk : isSensitiveKey k = true
    · simpa [redactObj, hk] using DiffObj.consSens hk (diffObj_redact r)
    · have hk0 : isSensitiveKey k = false := by simpa using hk
      simpa [redactObj, hk0] using
        DiffObj.consPlain hk0 (diffVal_redact v) (diffObj_redact r)

theorem diffArr_redact : (a : Arr) → DiffArr a (redactArr a)
  | .nil => DiffArr.nil
  | .cons v r => DiffArr.cons (diffVal_redact v) (diffArr_redact r)

end

mutual

theorem noSecrets_redactV : (v : Val) → noSecretsV (redact_config v) = true
  | .vstr _ => rfl
  | .vint _ => rfl
  | .vbool _ => rfl
  | .vnull => rfl
  | .vdict o => noSecrets_redactO o
  | .varr a => noSecrets_redactA a

theorem noSecrets_redactO : (o : Obj) → noSecretsO (redactObj o) = true
  | .nil => rfl
  | .cons k v r => by
    by_cases hk : isSensitiveKey k = true
    · simp [redactObj, noSecretsO, hk, isRedactedStr, noSecrets_redactO r]
    · have hk0 : isSensitiveKey k = false := by simpa using hk
      simp [redactObj, noSecretsO, hk0, noSecrets_redactV v, noSecrets_redactO r]

theorem noSecrets_redactA : (a : Arr) → noSecretsA (redactArr a) = true
  | .nil => rfl
  | .cons v r => by
    simp [redactArr, noSecretsA, noSecrets_redactV v, noSecrets_redactA r]

end

mutual

theorem redactV_eq_of_diff : {v₁ v₂ : Val} → DiffVal v₁ v₂ →
    redact_config v₁ = redact_config v₂
  | _, _, .vstr _ => rfl
  | _, _, .vint _ => rfl
  | _, _, .vbool _ => rfl
  | _, _, .vnull => rfl
  | _, _, .vdict h => congrArg Val.vdict (redactO_eq_of_diff h)
  | _, _, .varr h => congrArg Val.varr (redactA_eq_of_diff h)

theorem redactO_eq_of_diff : {o₁ o₂ : Obj} → DiffObj o₁ o₂ →
    redactObj o₁ = redactObj o₂
  | _, _, .nil => rfl
  | _, _, .consSens hk hr => by
    simp [redactObj, hk, redactO_eq_of_diff hr]
  | _, _, .consPlain hk hv hr => by
    simp [redactObj, hk, redactV_eq_of_diff hv, redactO_eq_of_diff hr]

theorem redactA_eq_of_diff : {a₁ a₂ : Arr} → DiffArr a₁ a₂ →
    redactArr a₁ = redactArr a₂
  | _, _, .nil => rfl
  | _, _, .cons hv hr => by
    simp [redactArr, redactV_eq_of_diff hv, redactA_eq_of_diff hr]

end

/-- Claim C10: redact_config changes a configuration only at the values of
sensitive keys (case-insensitively password, pass, secret, token, push_key,
at any nesting depth), leaves every sensitive entry holding exactly the
string ***REDACTED***, and therefore maps any two configurations that differ
only in sensitive values to the same redacted configuration, so those values
never reach the debug log. -/
theorem redact_config_spec :
    (∀ c : Val, DiffVal c (redact_config c)) ∧
    (∀ c : Val, noSecretsV (redact_config c) = true) ∧
    (∀ c₁ c₂ : Val, DiffVal c₁ c₂ → redact_config c₁ = redact_config c₂) :=
  ⟨diffVal_redact, noSecrets_redactV, fun _ _ h => redactV_eq_of_diff h⟩

theorem redact_config_spec_witness : redact_config cW1 = redact_config cW2 :=
  redact_config_spec.2.2 cW1 cW2
    (DiffVal.vdict (DiffObj.consPlain (by decide)
      (DiffVal.vdict (DiffObj.consSens (by decide) DiffObj.nil))
      (DiffObj.consPlain (by decide) (DiffVal.vstr "mail.example.org")
        DiffObj.nil)))

end MailflowChecker
